import Mathlib

/-!
# service_manager: the command-line front end (`main.go`)

A shallow embedding of `main.go` of `Darkclainer/service_manager`: the
configuration loader (`addService`, `parseConfig`), the terminal service list
(`ServiceList`, `NewServiceList`, `SetState`) and `main`.

Conventions of the embedding.

* A Go `error` is a value of `GoError`; the nil error is `none`.
* A `*ServiceConfig` is an `Option ServiceConfig`; the nil pointer is `none`.
* A Go slice of strings is a `List String` (a nil slice and an empty slice
  are both `[]`; the code only takes `len`, indexes and re-slices them).
* Code that lives outside `main.go` (the `ServiceManager` methods,
  `regexp.Compile`, `os.Open`, the YAML decoder, running the terminal
  application) is a field of the environment `Env`; every theorem holds for
  all environments.
* The service manager is threaded through as an explicit value that also
  carries the log of the `Register` calls made on it.
* A Go run-time panic is `none` of an `Option` result.
-/

set_option autoImplicit false

namespace ServiceManagerMain

/-! ## Errors -/

/-- A Go `error` value. `errorsNew t` is `errors.New(t)`; `foreign t` is an
error made by code outside `main.go` whose message is `t`; `errorf p e` is
`fmt.Errorf` with a format that ends in `%w`, where `pre` is the formatted
text in front of the wrapped error `inner`. -/
inductive GoError where
  | errorsNew (text : String)
  | foreign (text : String)
  | errorf (pre : String) (inner : GoError)
  deriving DecidableEq, Repr

namespace GoError

/-- The method `Error()`: the message of an error. A wrapping error prints its
formatted text followed by the message of the wrapped error. -/
def Error : GoError → String
  | errorsNew text => text
  | foreign text => text
  | errorf pre inner => pre ++ inner.Error

/-- The method `Unwrap()` as `errors.Unwrap` sees it: the error wrapped with
`%w`, if any. -/
def Unwrap : GoError → Option GoError
  | errorsNew _ => none
  | foreign _ => none
  | errorf _ inner => some inner

end GoError

/-! ## Configuration records and the service manager -/

/-- The struct `ServiceConfig` (main.go, lines 14-18). -/
structure ServiceConfig where
  Command : List String
  Requirements : List String
  RunTemplate : String
  deriving DecidableEq, Repr

/-- The five arguments of one call `manager.Register(name, executable,
arguments, runTemplate, dependencies)`; `runTemplate` is the `*regexp.Regexp`
argument, `none` for the nil pointer. -/
structure RegisterCall (R : Type) where
  name : String
  executable : String
  arguments : List String
  runTemplate : Option R
  dependencies : List String
  deriving DecidableEq, Repr

/-- The code `main.go` calls but does not contain. `M` is the state of a
`ServiceManager`, `R` the type of compiled regular expressions, `F` the type
of open files.

* `regexpCompile` is `regexp.Compile`;
* `NewServiceManager`, `Register`, `Init` are the constructor and methods of
  `ServiceManager` (`Init` returns the message stream, which `main` discards,
  and the list of service names);
* `osOpen` is `os.Open`;
* `yamlDecode` is decoding the file into a `map[string]*ServiceConfig`
  followed by the order in which `range` visits that map: the result lists
  the entries of the map in visiting order;
* `appRun` is `app.SetRoot(flex, true).SetFocus(flex).Run()`. -/
structure Env (M R F : Type) where
  regexpCompile : String → Except GoError R
  NewServiceManager : M
  Register : M → RegisterCall R → M × Option GoError
  Init : M → M × Except GoError (List String)
  osOpen : String → Except GoError F
  yamlDecode : F → Except GoError (List (String × Option ServiceConfig))
  appRun : Unit → Option GoError

/-- A `*ServiceManager` as `main.go` sees it: its state, and the log of the
`Register` calls made on it so far, oldest first. -/
structure ServiceManager (M R : Type) where
  state : M
  registerCalls : List (RegisterCall R)

variable {M R F : Type}

/-- The method call `manager.Register(...)`: runs the environment's `Register`
on the manager's state and logs the call. -/
def ServiceManager.Register (env : Env M R F) (manager : ServiceManager M R)
    (call : RegisterCall R) : ServiceManager M R × Option GoError :=
  let r := env.Register manager.state call
  ({ state := r.1, registerCalls := manager.registerCalls ++ [call] }, r.2)

/-- The call `NewServiceManager()`: a fresh manager, on which no `Register`
call has been made. -/
def NewServiceManager (env : Env M R F) : ServiceManager M R :=
  { state := env.NewServiceManager, registerCalls := [] }

/-- The function `addService(manager, name, config)` (main.go, lines 20-49).
Returns the manager after the call and the returned error. -/
def addService (env : Env M R F) (manager : ServiceManager M R) (name : String)
    (config : Option ServiceConfig) : ServiceManager M R × Option GoError :=
  match config with
  | none => (manager, some (.errorsNew "service config is empty"))
  | some config =>
    if name = "" then
      (manager, some (.errorsNew "name should not be empty"))
    else if h : config.Command.length < 1 then
      (manager, some (.errorsNew "command should contain at least one element"))
    else
      -- `var runTemplate *regexp.Regexp` and the `if config.RunTemplate != ""` block
      let compiled : Except GoError (Option R) :=
        if config.RunTemplate ≠ "" then
          match env.regexpCompile config.RunTemplate with
          | .error err => .error (.errorf "failed to compile run_template regexp: " err)
          | .ok re => .ok (some re)
        else
          .ok none
      match compiled with
      | .error err => (manager, some err)
      | .ok runTemplate =>
        let r := manager.Register env
          { name := name
            executable := config.Command[0]
            arguments := config.Command.drop 1
            runTemplate := runTemplate
            dependencies := config.Requirements }
        match r.2 with
        | some err => (r.1, some err)
        | none => (r.1, none)

/-! ## Loading the configuration file -/

/-- What `parseConfig` leaves behind: the manager, the returned error, and the
entries its loop handed to `addService`, in visiting order. -/
structure ParseResult (M R : Type) where
  manager : ServiceManager M R
  err : Option GoError
  visited : List (String × Option ServiceConfig)

/-- The loop `for name, config := range configs` of `parseConfig` (main.go,
lines 61-66) over the entries in visiting order; `visited` are the entries
already handed to `addService`. -/
def parseConfigLoop (env : Env M R F) (manager : ServiceManager M R)
    (visited : List (String × Option ServiceConfig)) :
    List (String × Option ServiceConfig) → ParseResult M R
  | [] => { manager := manager, err := none, visited := visited }
  | (name, config) :: rest =>
    match addService env manager name config with
    | (manager', some err) =>
      { manager := manager'
        err := some (.errorf ("Failed to parse service config for " ++ name ++ ": ") err)
        visited := visited ++ [(name, config)] }
    | (manager', none) => parseConfigLoop env manager' (visited ++ [(name, config)]) rest

/-- The function `parseConfig(manager, filename)` (main.go, lines 51-67). -/
def parseConfig (env : Env M R F) (manager : ServiceManager M R) (filename : String) :
    ParseResult M R :=
  match env.osOpen filename with
  | .error err => { manager := manager, err := some err, visited := [] }
  | .ok file =>
    match env.yamlDecode file with
    | .error err => { manager := manager, err := some err, visited := [] }
    | .ok configs => parseConfigLoop env manager [] configs

/-- What `addService` returns on each entry of a list, the entries taken in
order and each call made on the manager the previous call left behind. This
is the yardstick `parseConfig` is measured against, not part of the program. -/
def addServiceOutcomes (env : Env M R F) (manager : ServiceManager M R) :
    List (String × Option ServiceConfig) → List (Option GoError)
  | [] => []
  | (name, config) :: rest =>
    (addService env manager name config).2 ::
      addServiceOutcomes env (addService env manager name config).1 rest

/-- The manager that is left when `addService` is called on each entry of a
list, the entries taken in order and each call made on the manager the
previous call left behind, and on no other entry. Like `addServiceOutcomes`
this is a yardstick for `parseConfig`, not part of the program. -/
def addServiceRun (env : Env M R F) (manager : ServiceManager M R) :
    List (String × Option ServiceConfig) → ServiceManager M R
  | [] => manager
  | (name, config) :: rest => addServiceRun env (addService env manager name config).1 rest

/-! ## The service list of the display -/

/-- Modelled from the spec: the type `State` and its constants are declared
outside `main.go`. The spec (§3, ServiceState) gives exactly five states:
Dead, Started, Running, Finished and Failed; the two map literals of
`main.go` use the five constant names below as keys. -/
inductive State where
  | StateDead
  | StateStarted
  | StateRunning
  | StateFinished
  | StateFailed
  deriving DecidableEq, Repr

open State

/-- A Go map, as the list of its key/value pairs (each key at most once). -/
abbrev GoMap (κ ν : Type) := List (κ × ν)

namespace GoMap

variable {κ ν : Type} [DecidableEq κ]

/-- The value stored under `k`, if the map has the key (the `v, ok := m[k]`
form of a map read). -/
def get? (m : GoMap κ ν) (k : κ) : Option ν :=
  match m with
  | [] => none
  | (k', v) :: rest => if k' = k then some v else get? rest k

/-- The map read `m[k]`: the stored value, or the zero value of the value
type when the key is missing. -/
def index (zero : ν) (m : GoMap κ ν) (k : κ) : ν :=
  (get? m k).getD zero

/-- The assignment `m[k] = v`: replaces the value of an existing key, adds the
pair otherwise. -/
def set (m : GoMap κ ν) (k : κ) (v : ν) : GoMap κ ν :=
  match m with
  | [] => [(k, v)]
  | (k', v') :: rest => if k' = k then (k, v) :: rest else (k', v') :: set rest k v

end GoMap

/-- The map literal `serviceListStateNames` (main.go, lines 96-102). -/
def serviceListStateNames : GoMap State String :=
  [ (StateDead, "dead"),
    (StateFailed, "failed"),
    (StateRunning, "running"),
    (StateStarted, "started"),
    (StateFinished, "finished") ]

/-- The map literal `serviceListStateColors` (main.go, lines 103-109). -/
def serviceListStateColors : GoMap State String :=
  [ (StateDead, "grey"),
    (StateFailed, "red"),
    (StateRunning, "green"),
    (StateStarted, "yellow"),
    (StateFinished, "white") ]

/-- One item of a `tview.List`: its main text, secondary text and shortcut
rune (the selection callback has no part in what follows). -/
structure ListItem where
  MainText : String
  SecondaryText : String
  Shortcut : Nat
  deriving DecidableEq, Repr

/-- The part of a `tview.List` (library `github.com/rivo/tview`) that
`main.go` uses: the items in display order and the secondary-text flag. -/
structure TviewList where
  items : List ListItem
  showSecondaryText : Bool
  deriving DecidableEq, Repr

namespace TviewList

/-- The library call `tview.NewList()`: an empty list that shows secondary text. -/
def NewList : TviewList := { items := [], showSecondaryText := true }

/-- The library method `ShowSecondaryText(show)`. -/
def ShowSecondaryText (l : TviewList) (shown : Bool) : TviewList :=
  { l with showSecondaryText := shown }

/-- The library method `AddItem(mainText, secondaryText, shortcut, selected)`:
appends one item at the end of the list. -/
def AddItem (l : TviewList) (mainText secondaryText : String) (shortcut : Nat) : TviewList :=
  let item : ListItem :=
    { MainText := mainText, SecondaryText := secondaryText, Shortcut := shortcut }
  { l with items := l.items ++ [item] }

/-- The library method `SetItemText(index, main, secondary)`: overwrites both
texts of the item at `index`; an index outside the list panics (`none`). -/
def SetItemText (l : TviewList) (index : Nat) (main secondary : String) : Option TviewList :=
  if h : index < l.items.length then
    let item : ListItem :=
      { MainText := main, SecondaryText := secondary, Shortcut := l.items[index].Shortcut }
    some { l with items := l.items.set index item }
  else
    none

end TviewList

/-- The struct `ServiceList` (main.go, lines 69-73); `tviewList` is the
embedded `*tview.List`. -/
structure ServiceList where
  tviewList : TviewList
  services : List String
  serviceIndexes : GoMap String Nat
  deriving DecidableEq, Repr

namespace ServiceList

/-- The value of the local `mainText` in `SetState` (main.go, lines 112-116):
`fmt.Sprintf("[%s]â—[-] %s (%s)", serviceListStateColors[state], name,
serviceListStateNames[state])`. -/
def mainText (name : String) (state : State) : String :=
  "[" ++ GoMap.index "" serviceListStateColors state ++ "]â—[-] " ++ name ++ " (" ++
    GoMap.index "" serviceListStateNames state ++ ")"

/-- The method `SetState(name, state)` (main.go, lines 111-118). -/
def SetState (l : ServiceList) (name : String) (state : State) : Option ServiceList :=
  match l.tviewList.SetItemText (GoMap.index 0 l.serviceIndexes name) (mainText name state) "" with
  | none => none
  | some t => some { l with tviewList := t }

/-- The method `addService(name)` of `ServiceList` (main.go, lines 88-94). -/
def addService (l : ServiceList) (name : String) : Option ServiceList :=
  let index := l.services.length
  let l1 : ServiceList :=
    { tviewList := l.tviewList.AddItem name "" 0
      services := l.services ++ [name]
      serviceIndexes := GoMap.set l.serviceIndexes name index }
  l1.SetState name StateDead

end ServiceList

/-- The function `NewServiceList(services)` (main.go, lines 75-86): starts
from an empty list and adds the services one by one. -/
def NewServiceList (services : List String) : Option ServiceList :=
  services.foldlM (fun list service => list.addService service)
    { tviewList := TviewList.NewList.ShowSecondaryText false
      services := []
      serviceIndexes := [] }

/-- The service lists a program can hold: `NewServiceList` makes one, and
the methods `addService` and `SetState` lead from one to the next. -/
inductive ServiceList.Reachable : ServiceList → Prop where
  | new (services : List String) (l : ServiceList) (h : NewServiceList services = some l) :
      Reachable l
  | addService (l0 l : ServiceList) (name : String) (h0 : Reachable l0)
      (h : l0.addService name = some l) : Reachable l
  | setState (l0 l : ServiceList) (name : String) (state : State) (h0 : Reachable l0)
      (h : l0.SetState name state = some l) : Reachable l

/-- The invariant of a service list: the display has one item per service,
and the index map sends exactly the added names to a position that holds the
name. -/
structure ServiceList.Inv (l : ServiceList) : Prop where
  length_eq : l.tviewList.items.length = l.services.length
  index_get : ∀ n i, GoMap.get? l.serviceIndexes n = some i → l.services[i]? = some n
  index_none : ∀ n, n ∉ l.services → GoMap.get? l.serviceIndexes n = none
  index_some : ∀ n, n ∈ l.services → ∃ i, GoMap.get? l.serviceIndexes n = some i

/-! ## The program -/

/-- What a run of `main` does that can be seen from outside, in order. -/
inductive Event where
  /-- `fmt.Printf` wrote this text. -/
  | printed (text : String)
  /-- `manager.Init()` was called. -/
  | initCalled
  /-- `NewServiceList` built this service list for the display. -/
  | serviceListBuilt (list : ServiceList)
  /-- the terminal application was run with the display as its root. -/
  | appRun
  /-- `os.Exit(code)`. -/
  | exit (code : Nat)
  /-- a run-time panic ended the program. -/
  | panicked
  deriving DecidableEq, Repr

/-- The function `main` (main.go, lines 122-153), for the value `configPath`
of the `-config` flag. The message stream returned by `Init` is discarded
(`_ = messages`), so nothing calls `SetState` after `NewServiceList`. -/
def main (env : Env M R F) (configPath : String) : List Event :=
  let manager := NewServiceManager env
  let parsed := parseConfig env manager configPath
  match parsed.err with
  | some err => [.printed ("Error while parsing config: " ++ err.Error ++ "\n"), .exit 1]
  | none =>
    .initCalled ::
    match (env.Init parsed.manager.state).2 with
    | .error err => [.printed ("Error while initing service manager: " ++ err.Error), .exit 1]
    | .ok services =>
      match NewServiceList services with
      | none => [.panicked]
      | some serviceList =>
        .serviceListBuilt serviceList :: .appRun ::
        match env.appRun () with
        | some _ => [.panicked]
        | none => []

/-! ## A concrete environment

Used to evaluate the definitions on examples. Its functions stand in for
the code outside `main.go`. -/

/-- A stand-in for `regexp.Compile`: a compiled expression is its source
text, and the patterns `(` and `[` do not compile. -/
def sampleCompile (expr : String) : Except GoError String :=
  if expr = "(" ∨ expr = "[" then
    .error (.foreign ("error parsing regexp: " ++ expr))
  else
    .ok expr

/-- A stand-in for `Register`: the manager state is the list of registered
names; a call with an empty name or an empty executable is refused. -/
def sampleRegister (names : List String) (call : RegisterCall String) :
    List String × Option GoError :=
  if call.name = "" ∨ call.executable = "" then
    (names, some (.foreign "invalid definition"))
  else
    (names ++ [call.name], none)

/-- A stand-in for `Init`: refuses a manager without services, otherwise
returns the registered names. -/
def sampleInit (names : List String) : List String × Except GoError (List String) :=
  if names = [] then (names, .error (.foreign "no services")) else (names, .ok names)

/-- The entries of a well-formed configuration file, in visiting order. -/
def sampleEntries : List (String × Option ServiceConfig) :=
  [ ("db", some { Command := ["postgres"], Requirements := [], RunTemplate := "" }),
    ("api", some { Command := ["api", "--port", "80"], Requirements := ["db"],
                   RunTemplate := "listening on" }) ]

/-- The entries of a configuration file whose second service has no command. -/
def sampleBadEntries : List (String × Option ServiceConfig) :=
  [ ("db", some { Command := ["postgres"], Requirements := [], RunTemplate := "" }),
    ("api", some { Command := [], Requirements := ["db"], RunTemplate := "" }),
    ("web", some { Command := ["nginx"], Requirements := ["api"], RunTemplate := "" }) ]

/-- A stand-in for the file system and the YAML decoder: three files. -/
def sampleFiles (filename : String) : Except GoError (List (String × Option ServiceConfig)) :=
  if filename = "config.yaml" then
    .ok sampleEntries
  else if filename = "bad.yaml" then
    .ok sampleBadEntries
  else if filename = "none.yaml" then
    .ok []
  else
    .error (.foreign ("open " ++ filename ++ ": no such file or directory"))

/-- The concrete environment built from the stand-ins above. -/
def sampleEnv : Env (List String) String (List (String × Option ServiceConfig)) where
  regexpCompile := sampleCompile
  NewServiceManager := []
  Register := sampleRegister
  Init := sampleInit
  osOpen := sampleFiles
  yamlDecode := fun entries => .ok entries
  appRun := fun _ => none

/-- A fresh manager of the concrete environment. -/
def sampleManager : ServiceManager (List String) String :=
  { state := [], registerCalls := [] }

/-! # Theorems -/

/-! ## Lemmas on `addService` -/

/-- Returning `err` when it is not nil and nil otherwise is returning `err`. -/
theorem reraise_eq {α : Type} (r : α × Option GoError) :
    (match r.2 with
      | some err => (r.1, some err)
      | none => (r.1, none)) = r := by
  rcases r with ⟨a, _ | e⟩ <;> rfl

/-- With a non-empty name, a command `exe :: args` and a `run_template` that
is empty or compiles, `addService` is the single call of `Register` on
`name`, `exe`, `args`, the pattern and the requirements. -/
theorem addService_eq_of_valid (env : Env M R F) (manager : ServiceManager M R) (name : String)
    (config : ServiceConfig) (exe : String) (args : List String) (pat : Option R)
    (hname : name ≠ "") (hcmd : config.Command = exe :: args)
    (hpat : (config.RunTemplate = "" ∧ pat = none) ∨
      (config.RunTemplate ≠ "" ∧ ∃ re, env.regexpCompile config.RunTemplate = .ok re ∧ pat = some re)) :
    addService env manager name (some config) =
      manager.Register env
        { name := name, executable := exe, arguments := args, runTemplate := pat,
          dependencies := config.Requirements } := by
  have hlen : ¬ config.Command.length < 1 := by simp [hcmd]
  have h0 : ∀ h : 0 < config.Command.length, config.Command[0] = exe := by simp [hcmd]
  have hd : config.Command.drop 1 = args := by simp [hcmd]
  rcases hpat with ⟨he, hp⟩ | ⟨hne, re, hre, hp⟩
  · subst hp
    simp only [addService, hname, hlen, he, h0, hd]
    simp [reraise_eq]
  · subst hp
    simp only [addService, hname, hlen, hne, h0, hd, hre]
    simp [reraise_eq, hne]

/-- When `addService` stops before `Register`: it returns the manager as it
was, with an error. -/
theorem addService_eq_of_invalid (env : Env M R F) (manager : ServiceManager M R) (name : String)
    (config : Option ServiceConfig)
    (h : config = none ∨ name = "" ∨
      ∃ c, config = some c ∧ (c.Command = [] ∨
        (c.RunTemplate ≠ "" ∧ ∃ e, env.regexpCompile c.RunTemplate = .error e))) :
    ∃ err, addService env manager name config = (manager, some err) := by
  cases config with
  | none => exact ⟨_, rfl⟩
  | some c =>
    by_cases hname : name = ""
    · exact ⟨.errorsNew "name should not be empty", by simp [addService, hname]⟩
    · by_cases hlen : c.Command.length < 1
      · exact ⟨.errorsNew "command should contain at least one element",
          by simp [addService, hname, hlen]⟩
      · rcases h with h | h | ⟨c', hc, h⟩
        · simp at h
        · exact absurd h hname
        · cases hc
          rcases h with h | ⟨hne, e, he⟩
          · simp [h] at hlen
          · exact ⟨.errorf "failed to compile run_template regexp: " e,
              by simp [addService, hname, hlen, hne, he]⟩

/-- Either way: `addService` makes no `Register` call and returns an error
with the manager untouched, or it is one `Register` call whose executable and
arguments make up the command. -/
theorem addService_cases (env : Env M R F) (manager : ServiceManager M R) (name : String)
    (config : Option ServiceConfig) :
    (∃ err, addService env manager name config = (manager, some err)) ∨
    (∃ c exe args pat, config = some c ∧ name ≠ "" ∧ c.Command = exe :: args ∧
      ((c.RunTemplate = "" ∧ pat = none) ∨
        (c.RunTemplate ≠ "" ∧ ∃ re, env.regexpCompile c.RunTemplate = .ok re ∧ pat = some re)) ∧
      addService env manager name config =
        manager.Register env
          { name := name, executable := exe, arguments := args, runTemplate := pat,
            dependencies := c.Requirements }) := by
  cases config with
  | none => exact Or.inl (addService_eq_of_invalid env manager name none (Or.inl rfl))
  | some c =>
    by_cases hname : name = ""
    · exact Or.inl (addService_eq_of_invalid env manager name _ (Or.inr (Or.inl hname)))
    · cases hcmd : c.Command with
      | nil =>
        exact Or.inl (addService_eq_of_invalid env manager name _
          (Or.inr (Or.inr ⟨c, rfl, Or.inl hcmd⟩)))
      | cons exe args =>
        by_cases hre : c.RunTemplate = ""
        · exact Or.inr ⟨c, exe, args, none, rfl, hname, hcmd, Or.inl ⟨hre, rfl⟩,
            addService_eq_of_valid env manager name c exe args none hname hcmd (Or.inl ⟨hre, rfl⟩)⟩
        · cases hcomp : env.regexpCompile c.RunTemplate with
          | error e =>
            exact Or.inl (addService_eq_of_invalid env manager name _
              (Or.inr (Or.inr ⟨c, rfl, Or.inr ⟨hre, e, hcomp⟩⟩)))
          | ok re =>
            exact Or.inr ⟨c, exe, args, some re, rfl, hname, hcmd, Or.inr ⟨hre, re, hcomp, rfl⟩,
              addService_eq_of_valid env manager name c exe args (some re) hname hcmd
                (Or.inr ⟨hre, re, hcomp, rfl⟩)⟩

/-! ## Claims on `addService` -/

/-- C1: for every name and config, when the config is nil, the name is the
empty string, the command list is empty, or `run_template` is a non-empty
string that does not compile, `addService` returns an error and makes no
`Register` call: the log of calls and the manager state are as before. -/
theorem addService_rejects_without_register (env : Env M R F) (manager : ServiceManager M R)
    (name : String) (config : Option ServiceConfig)
    (h : config = none ∨ name = "" ∨
      ∃ c, config = some c ∧ (c.Command = [] ∨
        (c.RunTemplate ≠ "" ∧ ∃ e, env.regexpCompile c.RunTemplate = .error e))) :
    (∃ err, (addService env manager name config).2 = some err) ∧
    (addService env manager name config).1.registerCalls = manager.registerCalls ∧
    (addService env manager name config).1.state = manager.state := by
  obtain ⟨err, he⟩ := addService_eq_of_invalid env manager name config h
  rw [he]
  exact ⟨⟨err, rfl⟩, rfl, rfl⟩

/-- C1 at a concrete input: a `run_template` that does not compile, in the
concrete environment. -/
theorem addService_rejects_without_register_witness :
    (sampleEnv.regexpCompile "(" = .error (.foreign "error parsing regexp: (")) ∧
    ((∃ err, (addService sampleEnv sampleManager "api"
        (some { Command := ["api"], Requirements := [], RunTemplate := "(" })).2 = some err) ∧
     (addService sampleEnv sampleManager "api"
        (some { Command := ["api"], Requirements := [], RunTemplate := "(" })).1.registerCalls
        = sampleManager.registerCalls ∧
     (addService sampleEnv sampleManager "api"
        (some { Command := ["api"], Requirements := [], RunTemplate := "(" })).1.state
        = sampleManager.state) :=
  ⟨rfl,
   addService_rejects_without_register sampleEnv sampleManager "api"
    (some { Command := ["api"], Requirements := [], RunTemplate := "(" })
    (Or.inr (Or.inr ⟨_, rfl, Or.inr ⟨by decide, .foreign "error parsing regexp: (", rfl⟩⟩))⟩

/-- C2: for every non-empty name and every non-nil config with a non-empty
command list and a `run_template` that is empty or compiles, `addService`
makes exactly one `Register` call: with that name, the first element of the
command as executable, the remaining elements in order as arguments (so the
executable followed by the arguments is the command) and the requirements
list as it is, whatever it holds; the manager state and the returned error
are exactly those of that `Register` call (nil iff `Register` returned nil). -/
theorem addService_registers_once (env : Env M R F) (manager : ServiceManager M R)
    (name : String) (config : ServiceConfig)
    (hname : name ≠ "") (hcmd : config.Command ≠ [])
    (hre : config.RunTemplate = "" ∨ ∃ re, env.regexpCompile config.RunTemplate = .ok re) :
    ∃ exe args pat,
      exe :: args = config.Command ∧
      (addService env manager name (some config)).1.registerCalls =
        manager.registerCalls ++
          [{ name := name, executable := exe, arguments := args, runTemplate := pat,
             dependencies := config.Requirements }] ∧
      (addService env manager name (some config)).1.state =
        (env.Register manager.state
          { name := name, executable := exe, arguments := args, runTemplate := pat,
            dependencies := config.Requirements }).1 ∧
      (addService env manager name (some config)).2 =
        (env.Register manager.state
          { name := name, executable := exe, arguments := args, runTemplate := pat,
            dependencies := config.Requirements }).2 ∧
      ((addService env manager name (some config)).2 = none ↔
        (env.Register manager.state
          { name := name, executable := exe, arguments := args, runTemplate := pat,
            dependencies := config.Requirements }).2 = none) := by
  obtain ⟨exe, args, hc⟩ := List.exists_cons_of_ne_nil hcmd
  have hpat : ∃ pat : Option R, (config.RunTemplate = "" ∧ pat = none) ∨
      (config.RunTemplate ≠ "" ∧ ∃ re, env.regexpCompile config.RunTemplate = .ok re ∧
        pat = some re) := by
    by_cases he : config.RunTemplate = ""
    · exact ⟨none, Or.inl ⟨he, rfl⟩⟩
    · rcases hre with hre | ⟨re, hre⟩
      · exact absurd hre he
      · exact ⟨some re, Or.inr ⟨he, re, hre, rfl⟩⟩
  obtain ⟨pat, hpat⟩ := hpat
  refine ⟨exe, args, pat, hc.symm, ?_⟩
  rw [addService_eq_of_valid env manager name config exe args pat hname hc hpat]
  exact ⟨rfl, rfl, rfl, Iff.rfl⟩

/-- C2 at a concrete input. -/
theorem addService_registers_once_witness :
    ∃ exe args pat,
      exe :: args = ["api", "--port", "80"] ∧
      (addService sampleEnv sampleManager "api"
        (some { Command := ["api", "--port", "80"], Requirements := ["db"],
                RunTemplate := "listening on" })).1.registerCalls =
        sampleManager.registerCalls ++
          [{ name := "api", executable := exe, arguments := args, runTemplate := pat,
             dependencies := ["db"] }] ∧
      (addService sampleEnv sampleManager "api"
        (some { Command := ["api", "--port", "80"], Requirements := ["db"],
                RunTemplate := "listening on" })).1.state =
        (sampleEnv.Register sampleManager.state
          { name := "api", executable := exe, arguments := args, runTemplate := pat,
            dependencies := ["db"] }).1 ∧
      (addService sampleEnv sampleManager "api"
        (some { Command := ["api", "--port", "80"], Requirements := ["db"],
                RunTemplate := "listening on" })).2 =
        (sampleEnv.Register sampleManager.state
          { name := "api", executable := exe, arguments := args, runTemplate := pat,
            dependencies := ["db"] }).2 ∧
      ((addService sampleEnv sampleManager "api"
        (some { Command := ["api", "--port", "80"], Requirements := ["db"],
                RunTemplate := "listening on" })).2 = none ↔
        (sampleEnv.Register sampleManager.state
          { name := "api", executable := exe, arguments := args, runTemplate := pat,
            dependencies := ["db"] }).2 = none) :=
  addService_registers_once sampleEnv sampleManager "api"
    { Command := ["api", "--port", "80"], Requirements := ["db"], RunTemplate := "listening on" }
    (by decide) (by decide) (Or.inr ⟨"listening on", rfl⟩)

/-- C3: whenever `addService` passes a config on to `Register`, the config is
not nil, the pattern argument is nil if and only if `run_template` is the
empty string, and when `run_template` is not empty it compiles and the
pattern argument is the result of compiling exactly that string. -/
theorem addService_pattern_argument (env : Env M R F) (manager : ServiceManager M R)
    (name : String) (config : Option ServiceConfig) (call : RegisterCall R)
    (h : (addService env manager name config).1.registerCalls =
      manager.registerCalls ++ [call]) :
    ∃ c, config = some c ∧
      (call.runTemplate = none ↔ c.RunTemplate = "") ∧
      (c.RunTemplate ≠ "" →
        ∃ re, env.regexpCompile c.RunTemplate = .ok re ∧ call.runTemplate = some re) := by
  rcases addService_cases env manager name config with ⟨err, he⟩ | ⟨c, exe, args, pat, hc, -, -, hpat, he⟩
  · rw [he] at h
    simp at h
  · rw [he] at h
    simp only [ServiceManager.Register, List.append_cancel_left_eq, List.cons.injEq,
      and_true] at h
    subst h
    refine ⟨c, hc, ?_, ?_⟩
    · rcases hpat with ⟨h1, h2⟩ | ⟨h1, re, -, h2⟩
      · simp [h1, h2]
      · simp [h1, h2]
    · intro hne
      rcases hpat with ⟨h1, -⟩ | ⟨-, re, h2, h3⟩
      · exact absurd h1 hne
      · exact ⟨re, h2, h3⟩

/-- C3 at a concrete input. -/
theorem addService_pattern_argument_witness :
    (addService sampleEnv sampleManager "api"
        (some { Command := ["api"], Requirements := [], RunTemplate := "listening on" })).1.registerCalls
      = sampleManager.registerCalls ++
        [{ name := "api", executable := "api", arguments := [],
           runTemplate := some "listening on", dependencies := [] }] ∧
    ∃ c : ServiceConfig,
      some { Command := ["api"], Requirements := [], RunTemplate := "listening on" } = some c ∧
      ((some "listening on" : Option String) = none ↔ c.RunTemplate = "") ∧
      (c.RunTemplate ≠ "" →
        ∃ re, sampleEnv.regexpCompile c.RunTemplate = .ok re ∧ some "listening on" = some re) :=
  ⟨by decide,
   addService_pattern_argument sampleEnv sampleManager "api"
    (some { Command := ["api"], Requirements := [], RunTemplate := "listening on" })
    { name := "api", executable := "api", arguments := [],
      runTemplate := some "listening on", dependencies := [] } (by decide)⟩

/-- C4 fails as stated: a config whose command is the one-element list
holding the empty string passes the checks of `addService`, and `Register` is
called with the empty string as executable. -/
theorem addService_empty_executable_counterexample :
    (addService sampleEnv sampleManager "web"
        (some { Command := [""], Requirements := [], RunTemplate := "" })).1.registerCalls =
      [{ name := "web", executable := "", arguments := [], runTemplate := none,
         dependencies := [] }] := by
  decide

/-- C4, amended: whenever `addService` calls `Register`, the name is not
empty, the command list of the config is not empty, and the executable
argument is the first element of the command, the arguments the rest; the
first element itself is not examined. -/
theorem addService_executable_is_first (env : Env M R F) (manager : ServiceManager M R)
    (name : String) (config : Option ServiceConfig) (call : RegisterCall R)
    (h : (addService env manager name config).1.registerCalls =
      manager.registerCalls ++ [call]) :
    ∃ c, config = some c ∧ name ≠ "" ∧ c.Command ≠ [] ∧
      c.Command.head? = some call.executable ∧
      c.Command = call.executable :: call.arguments := by
  rcases addService_cases env manager name config with ⟨err, he⟩ | ⟨c, exe, args, pat, hc, hname, hcmd, -, he⟩
  · rw [he] at h
    simp at h
  · rw [he] at h
    simp only [ServiceManager.Register, List.append_cancel_left_eq, List.cons.injEq,
      and_true] at h
    subst h
    exact ⟨c, hc, hname, by simp [hcmd], by simp [hcmd], hcmd⟩

/-- C4, amended, at a concrete input: the command holding one empty string. -/
theorem addService_executable_is_first_witness :
    (addService sampleEnv sampleManager "web"
        (some { Command := [""], Requirements := [], RunTemplate := "" })).1.registerCalls =
      sampleManager.registerCalls ++
        [{ name := "web", executable := "", arguments := [], runTemplate := none,
           dependencies := [] }] ∧
    ∃ c : ServiceConfig,
      some { Command := [""], Requirements := [], RunTemplate := "" } = some c ∧
      "web" ≠ "" ∧ c.Command ≠ [] ∧ c.Command.head? = some "" ∧ c.Command = "" :: [] :=
  ⟨by decide,
   addService_executable_is_first sampleEnv sampleManager "web"
    (some { Command := [""], Requirements := [], RunTemplate := "" })
    { name := "web", executable := "", arguments := [], runTemplate := none,
      dependencies := [] } (by decide)⟩

/-! ## Lemmas on the loop of `parseConfig` -/

/-- The loop returns nil exactly when every outcome is nil. -/
theorem parseConfigLoop_err_none_iff (env : Env M R F) (manager : ServiceManager M R)
    (visited entries : List (String × Option ServiceConfig)) :
    (parseConfigLoop env manager visited entries).err = none ↔
      ∀ o ∈ addServiceOutcomes env manager entries, o = none := by
  induction entries generalizing manager visited with
  | nil => simp [parseConfigLoop, addServiceOutcomes]
  | cons entry rest ih =>
    obtain ⟨name, config⟩ := entry
    rcases hr : addService env manager name config with ⟨manager', _ | err⟩
    · simp [parseConfigLoop, addServiceOutcomes, hr, ih]
    · simp [parseConfigLoop, addServiceOutcomes, hr]

/-- At the first outcome that is an error, the loop stops: it returns that
error wrapped behind the name of the entry, having visited the entries up to
and including that one. -/
theorem parseConfigLoop_first_error (env : Env M R F) (manager : ServiceManager M R)
    (visited entries : List (String × Option ServiceConfig)) (i : Nat) (e : GoError)
    (hi : (addServiceOutcomes env manager entries)[i]? = some (some e))
    (hlt : ∀ j : Nat, j < i → (addServiceOutcomes env manager entries)[j]? = some none) :
    ∃ name config, entries[i]? = some (name, config) ∧
      (parseConfigLoop env manager visited entries).err =
        some (.errorf ("Failed to parse service config for " ++ name ++ ": ") e) ∧
      (parseConfigLoop env manager visited entries).visited = visited ++ entries.take (i + 1) := by
  induction entries generalizing manager visited i with
  | nil => simp [addServiceOutcomes] at hi
  | cons entry rest ih =>
    obtain ⟨name, config⟩ := entry
    rcases hr : addService env manager name config with ⟨manager', _ | err⟩
    · cases i with
      | zero => simp [addServiceOutcomes, hr] at hi
      | succ i =>
        simp only [addServiceOutcomes, hr, List.getElem?_cons_succ] at hi
        have hlt' : ∀ j : Nat, j < i → (addServiceOutcomes env manager' rest)[j]? = some none := by
          intro j hj
          have := hlt (j + 1) (by omega)
          simpa [addServiceOutcomes, hr] using this
        obtain ⟨n, c, h1, h2, h3⟩ := ih manager' (visited ++ [(name, config)]) i hi hlt'
        refine ⟨n, c, by simpa using h1, ?_, ?_⟩
        · simpa [parseConfigLoop, hr] using h2
        · simp [parseConfigLoop, hr, h3]
    · cases i with
      | zero =>
        simp only [addServiceOutcomes, hr, List.getElem?_cons_zero, Option.some.injEq] at hi
        subst hi
        exact ⟨name, config, by simp, by simp [parseConfigLoop, hr], by simp [parseConfigLoop, hr]⟩
      | succ i =>
        have := hlt 0 (by omega)
        simp [addServiceOutcomes, hr] at this

/-- A loop that returns nil has visited every entry. -/
theorem parseConfigLoop_visited_of_none (env : Env M R F) (manager : ServiceManager M R)
    (visited entries : List (String × Option ServiceConfig))
    (h : (parseConfigLoop env manager visited entries).err = none) :
    (parseConfigLoop env manager visited entries).visited = visited ++ entries := by
  induction entries generalizing manager visited with
  | nil => simp [parseConfigLoop]
  | cons entry rest ih =>
    obtain ⟨name, config⟩ := entry
    rcases hr : addService env manager name config with ⟨manager', _ | err⟩
    · simp only [parseConfigLoop, hr] at h ⊢
      rw [ih manager' _ h]
      simp
    · simp [parseConfigLoop, hr] at h

/-- A loop that returns nil leaves the manager that the `addService` calls
on all the entries, in order, leave. -/
theorem parseConfigLoop_manager_of_none (env : Env M R F) (manager : ServiceManager M R)
    (visited entries : List (String × Option ServiceConfig))
    (h : (parseConfigLoop env manager visited entries).err = none) :
    (parseConfigLoop env manager visited entries).manager = addServiceRun env manager entries := by
  induction entries generalizing manager visited with
  | nil => simp [parseConfigLoop, addServiceRun]
  | cons entry rest ih =>
    obtain ⟨name, config⟩ := entry
    rcases hr : addService env manager name config with ⟨manager', _ | err⟩
    · simp only [parseConfigLoop, hr] at h ⊢
      rw [ih manager' _ h]
      simp [addServiceRun, hr]
    · simp [parseConfigLoop, hr] at h

/-- A loop that stops at the first outcome that is an error leaves the
manager that the `addService` calls on the entries up to and including that
one leave: no later entry has touched it. -/
theorem parseConfigLoop_manager_first_error (env : Env M R F) (manager : ServiceManager M R)
    (visited entries : List (String × Option ServiceConfig)) (i : Nat) (e : GoError)
    (hi : (addServiceOutcomes env manager entries)[i]? = some (some e))
    (hlt : ∀ j : Nat, j < i → (addServiceOutcomes env manager entries)[j]? = some none) :
    (parseConfigLoop env manager visited entries).manager =
      addServiceRun env manager (entries.take (i + 1)) := by
  induction entries generalizing manager visited i with
  | nil => simp [addServiceOutcomes] at hi
  | cons entry rest ih =>
    obtain ⟨name, config⟩ := entry
    rcases hr : addService env manager name config with ⟨manager', _ | err⟩
    · cases i with
      | zero => simp [addServiceOutcomes, hr] at hi
      | succ i =>
        simp only [addServiceOutcomes, hr, List.getElem?_cons_succ] at hi
        have hlt' : ∀ j : Nat, j < i → (addServiceOutcomes env manager' rest)[j]? = some none := by
          intro j hj
          have := hlt (j + 1) (by omega)
          simpa [addServiceOutcomes, hr] using this
        have := ih manager' (visited ++ [(name, config)]) i hi hlt'
        simp only [parseConfigLoop, hr, List.take_succ_cons, addServiceRun]
        exact this
    · cases i with
      | zero => simp [parseConfigLoop, addServiceRun, hr]
      | succ i =>
        have := hlt 0 (by omega)
        simp [addServiceOutcomes, hr] at this

/-- The `Register` calls logged on the manager of `addServiceRun` start with
those already logged: calls are only ever added at the end. -/
theorem addServiceRun_registerCalls_prefix (env : Env M R F) (manager : ServiceManager M R)
    (entries : List (String × Option ServiceConfig)) :
    ∃ added, (addServiceRun env manager entries).registerCalls = manager.registerCalls ++ added ∧
      added.length ≤ entries.length := by
  induction entries generalizing manager with
  | nil => exact ⟨[], by simp [addServiceRun], by simp⟩
  | cons entry rest ih =>
    obtain ⟨name, config⟩ := entry
    obtain ⟨added, h1, h2⟩ := ih (addService env manager name config).1
    rcases addService_cases env manager name config with
      ⟨err, he⟩ | ⟨c, exe, args, pat, -, -, -, -, he⟩
    · rw [he] at h1
      exact ⟨added, by simpa [addServiceRun, he] using h1, by simp; omega⟩
    · rw [he] at h1
      refine ⟨{ name := name, executable := exe, arguments := args, runTemplate := pat,
                dependencies := c.Requirements } :: added, ?_, by simp; omega⟩
      simpa [addServiceRun, he, ServiceManager.Register] using h1

/-- Running over the first `i + 1` entries is running over the first `i` and
then calling `addService` on the entry at position `i`. -/
theorem addServiceRun_take_succ (env : Env M R F) (manager : ServiceManager M R)
    (entries : List (String × Option ServiceConfig)) (i : Nat) (name : String)
    (config : Option ServiceConfig) (h : entries[i]? = some (name, config)) :
    addServiceRun env manager (entries.take (i + 1)) =
      (addService env (addServiceRun env manager (entries.take i)) name config).1 := by
  induction entries generalizing manager i with
  | nil => simp at h
  | cons entry rest ih =>
    cases i with
    | zero =>
      simp only [List.getElem?_cons_zero, Option.some.injEq] at h
      subst h
      simp [addServiceRun]
    | succ i =>
      obtain ⟨n, c⟩ := entry
      simp only [List.getElem?_cons_succ] at h
      simp only [List.take_succ_cons, addServiceRun]
      exact ih _ i h

/-- The outcome at position `i` is what `addService` returns on the entry at
position `i`, called on the manager the earlier entries leave. -/
theorem addServiceOutcomes_getElem? (env : Env M R F) (manager : ServiceManager M R)
    (entries : List (String × Option ServiceConfig)) (i : Nat) (name : String)
    (config : Option ServiceConfig) (h : entries[i]? = some (name, config)) :
    (addServiceOutcomes env manager entries)[i]? =
      some (addService env (addServiceRun env manager (entries.take i)) name config).2 := by
  induction entries generalizing manager i with
  | nil => simp at h
  | cons entry rest ih =>
    cases i with
    | zero =>
      simp only [List.getElem?_cons_zero, Option.some.injEq] at h
      subst h
      simp [addServiceOutcomes, addServiceRun]
    | succ i =>
      obtain ⟨n, c⟩ := entry
      simp only [List.getElem?_cons_succ] at h
      simp only [addServiceOutcomes, List.getElem?_cons_succ, List.take_succ_cons, addServiceRun]
      exact ih _ i h

/-- Some outcome is an error exactly when there is a first one. -/
theorem exists_first_error (outs : List (Option GoError)) (h : ¬ ∀ o ∈ outs, o = none) :
    ∃ (i : Nat) (e : GoError), outs[i]? = some (some e) ∧ ∀ j : Nat, j < i → outs[j]? = some none := by
  induction outs with
  | nil => simp at h
  | cons o rest ih =>
    cases o with
    | some e => exact ⟨0, e, by simp, by intro j hj; omega⟩
    | none =>
      have h' : ¬ ∀ o ∈ rest, o = none := by
        intro hall
        apply h
        intro o ho
        rcases List.mem_cons.1 ho with rfl | ho
        · rfl
        · exact hall o ho
      obtain ⟨i, e, hi, hlt⟩ := ih h'
      refine ⟨i + 1, e, by simpa using hi, ?_⟩
      intro j hj
      cases j with
      | zero => simp
      | succ j => simpa using hlt j (by omega)

/-! ## Claim on `parseConfig` -/

/-- C5: when the file opens and decodes into entries visited in the order
`entries`, `parseConfig` returns nil if and only if `addService` returns nil
on every entry (and then every entry was visited); otherwise there is a
first entry that `addService` rejects, and for it `parseConfig` returns an
error that wraps the error of `addService` on that entry, with a message that
starts with the text naming that service, and the entries handed to
`addService` are exactly those up to and including that one: the manager
`parseConfig` leaves, with its log of `Register` calls, is the one that the
`addService` calls on these entries alone leave, so no later entry has been
passed to `addService` or registered. When `parseConfig` returns nil the
manager is the one the calls on all the entries leave. -/
theorem parseConfig_first_rejected (env : Env M R F) (manager : ServiceManager M R)
    (filename : String) (file : F) (entries : List (String × Option ServiceConfig))
    (hopen : env.osOpen filename = .ok file) (hdecode : env.yamlDecode file = .ok entries) :
    ((parseConfig env manager filename).err = none ↔
      ∀ o ∈ addServiceOutcomes env manager entries, o = none) ∧
    ((parseConfig env manager filename).err = none →
      (parseConfig env manager filename).visited = entries ∧
      (parseConfig env manager filename).manager = addServiceRun env manager entries) ∧
    ((parseConfig env manager filename).err ≠ none →
      ∃ (i : Nat) (e : GoError), (addServiceOutcomes env manager entries)[i]? = some (some e) ∧
        ∀ j : Nat, j < i → (addServiceOutcomes env manager entries)[j]? = some none) ∧
    (∀ i e, (addServiceOutcomes env manager entries)[i]? = some (some e) →
      (∀ j : Nat, j < i → (addServiceOutcomes env manager entries)[j]? = some none) →
      ∃ name config err, entries[i]? = some (name, config) ∧
        (parseConfig env manager filename).err = some err ∧
        err.Unwrap = some e ∧
        err.Error = "Failed to parse service config for " ++ name ++ ": " ++ e.Error ∧
        (parseConfig env manager filename).visited = entries.take (i + 1) ∧
        (parseConfig env manager filename).manager =
          addServiceRun env manager (entries.take (i + 1)) ∧
        (parseConfig env manager filename).manager =
          (addService env (addServiceRun env manager (entries.take i)) name config).1 ∧
        (addService env (addServiceRun env manager (entries.take i)) name config).2 = some e ∧
        (∃ added, (parseConfig env manager filename).manager.registerCalls =
            manager.registerCalls ++ added ∧ added.length ≤ i + 1)) := by
  have hp : parseConfig env manager filename = parseConfigLoop env manager [] entries := by
    simp [parseConfig, hopen, hdecode]
  rw [hp]
  refine ⟨parseConfigLoop_err_none_iff env manager [] entries, ?_, ?_, ?_⟩
  · intro h
    exact ⟨by simpa using parseConfigLoop_visited_of_none env manager [] entries h,
      parseConfigLoop_manager_of_none env manager [] entries h⟩
  · intro h
    apply exists_first_error
    intro hall
    exact h ((parseConfigLoop_err_none_iff env manager [] entries).2 hall)
  · intro i e hi hlt
    obtain ⟨name, config, h1, h2, h3⟩ :=
      parseConfigLoop_first_error env manager [] entries i e hi hlt
    have hm := parseConfigLoop_manager_first_error env manager [] entries i e hi hlt
    have hout := addServiceOutcomes_getElem? env manager entries i name config h1
    rw [hi] at hout
    obtain ⟨added, ha1, ha2⟩ :=
      addServiceRun_registerCalls_prefix env manager (entries.take (i + 1))
    refine ⟨name, config, _, h1, h2, rfl, rfl, by simpa using h3, hm, ?_, ?_, added, ?_, ?_⟩
    · rw [hm]
      exact addServiceRun_take_succ env manager entries i name config h1
    · exact (Option.some.inj hout).symm
    · rw [hm]
      exact ha1
    · have hlen : (entries.take (i + 1)).length ≤ i + 1 := by simp
      omega

/-- C5 at a concrete input: the file whose second entry has no command. Its
third entry is well-formed, and it is not registered: the only `Register`
call on the manager is the one for the first entry. -/
theorem parseConfig_first_rejected_witness :
    sampleEnv.osOpen "bad.yaml" = .ok sampleBadEntries ∧
    sampleEnv.yamlDecode sampleBadEntries = .ok sampleBadEntries ∧
    (parseConfig sampleEnv sampleManager "bad.yaml").manager.registerCalls =
      [{ name := "db", executable := "postgres", arguments := [], runTemplate := none,
         dependencies := [] }] ∧
    ∃ name config err, sampleBadEntries[1]? = some (name, config) ∧
      (parseConfig sampleEnv sampleManager "bad.yaml").err = some err ∧
      err.Unwrap = some (.errorsNew "command should contain at least one element") ∧
      err.Error = "Failed to parse service config for " ++ name ++ ": " ++
        (GoError.errorsNew "command should contain at least one element").Error ∧
      (parseConfig sampleEnv sampleManager "bad.yaml").visited = sampleBadEntries.take (1 + 1) ∧
      (parseConfig sampleEnv sampleManager "bad.yaml").manager =
        addServiceRun sampleEnv sampleManager (sampleBadEntries.take (1 + 1)) ∧
      (parseConfig sampleEnv sampleManager "bad.yaml").manager =
        (addService sampleEnv (addServiceRun sampleEnv sampleManager (sampleBadEntries.take 1))
          name config).1 ∧
      (addService sampleEnv (addServiceRun sampleEnv sampleManager (sampleBadEntries.take 1))
          name config).2 = some (.errorsNew "command should contain at least one element") ∧
      (∃ added, (parseConfig sampleEnv sampleManager "bad.yaml").manager.registerCalls =
          sampleManager.registerCalls ++ added ∧ added.length ≤ 1 + 1) :=
  ⟨rfl, rfl, by decide,
   (parseConfig_first_rejected sampleEnv sampleManager "bad.yaml" sampleBadEntries
      sampleBadEntries rfl rfl).2.2.2 1
      (.errorsNew "command should contain at least one element") (by decide) (by decide)⟩

/-! ## Lemmas on Go maps -/

namespace GoMap

variable {κ ν : Type} [DecidableEq κ]

theorem get?_set_self (m : GoMap κ ν) (k : κ) (v : ν) : get? (set m k v) k = some v := by
  induction m with
  | nil => simp [set, get?]
  | cons p rest ih =>
    obtain ⟨k', v'⟩ := p
    by_cases h : k' = k
    · simp [set, get?, h]
    · simp [set, get?, h, ih]

theorem get?_set_of_ne (m : GoMap κ ν) (k k' : κ) (v : ν) (h : k' ≠ k) :
    get? (set m k v) k' = get? m k' := by
  induction m with
  | nil => simp [set, get?, Ne.symm h]
  | cons p rest ih =>
    obtain ⟨k'', v''⟩ := p
    by_cases h1 : k'' = k
    · subst h1
      simp [set, get?, Ne.symm h]
    · by_cases h2 : k'' = k'
      · subst h2
        simp [set, get?, h1]
      · simp [set, get?, h1, h2, ih]

end GoMap

/-! ## Lemmas on the service list -/

namespace ServiceList

/-- What `SetState` does when the index it reads is inside the list. -/
theorem SetState_eq (l : ServiceList) (name : String) (state : State)
    (h : GoMap.index 0 l.serviceIndexes name < l.tviewList.items.length) :
    l.SetState name state = some
      { tviewList :=
          { items := l.tviewList.items.set (GoMap.index 0 l.serviceIndexes name)
              { MainText := mainText name state
                SecondaryText := ""
                Shortcut := (l.tviewList.items[GoMap.index 0 l.serviceIndexes name]).Shortcut }
            showSecondaryText := l.tviewList.showSecondaryText }
        services := l.services
        serviceIndexes := l.serviceIndexes } := by
  simp [SetState, TviewList.SetItemText, h]

/-- `SetState` panics exactly when the index it reads is outside the list. -/
theorem SetState_eq_none (l : ServiceList) (name : String) (state : State)
    (h : ¬ GoMap.index 0 l.serviceIndexes name < l.tviewList.items.length) :
    l.SetState name state = none := by
  simp [SetState, TviewList.SetItemText, h]

/-- On a list with one item per service, `addService` appends the name, maps
it to the new position and appends its Dead item. -/
theorem addService_eq (l : ServiceList) (name : String)
    (h : l.tviewList.items.length = l.services.length) :
    l.addService name = some
      { tviewList :=
          { items := l.tviewList.items ++
              [{ MainText := mainText name StateDead, SecondaryText := "", Shortcut := 0 }]
            showSecondaryText := l.tviewList.showSecondaryText }
        services := l.services ++ [name]
        serviceIndexes := GoMap.set l.serviceIndexes name l.services.length } := by
  unfold addService
  simp only []
  rw [SetState_eq]
  · simp [GoMap.index, GoMap.get?_set_self, TviewList.AddItem, ← h]
  · simp [GoMap.index, GoMap.get?_set_self, TviewList.AddItem, ← h]

/-- The empty service list satisfies the invariant. -/
theorem Inv_empty (shown : Bool) :
    Inv { tviewList := { items := [], showSecondaryText := shown }
          services := []
          serviceIndexes := [] } :=
  ⟨rfl, by simp [GoMap.get?], by simp [GoMap.get?], by simp⟩

/-- The method `addService` keeps the invariant. -/
theorem Inv_addService (l l1 : ServiceList) (name : String) (hinv : Inv l)
    (h : l.addService name = some l1) : Inv l1 := by
  rw [addService_eq l name hinv.length_eq] at h
  cases h
  refine ⟨by simp [hinv.length_eq], ?_, ?_, ?_⟩
  · intro n i hn
    by_cases hname : n = name
    · subst hname
      simp only [GoMap.get?_set_self, Option.some.injEq] at hn
      subst hn
      simp
    · simp only [GoMap.get?_set_of_ne _ _ _ _ hname] at hn
      have := hinv.index_get n i hn
      have hi : i < l.services.length := by
        rcases Nat.lt_or_ge i l.services.length with hi | hi
        · exact hi
        · simp [List.getElem?_eq_none hi] at this
      simp only []
      rw [List.getElem?_append_left hi]
      exact this
  · intro n hn
    simp only [List.mem_append, List.mem_singleton, not_or] at hn
    simp only [GoMap.get?_set_of_ne _ _ _ _ hn.2]
    exact hinv.index_none n hn.1
  · intro n hn
    by_cases hname : n = name
    · subst hname
      exact ⟨_, GoMap.get?_set_self _ _ _⟩
    · simp only [List.mem_append, List.mem_singleton, hname, or_false] at hn
      simp only [GoMap.get?_set_of_ne _ _ _ _ hname]
      exact hinv.index_some n hn

/-- Under the invariant the index `SetState` reads is inside the list as soon
as the list has an item. -/
theorem Inv.index_lt (l : ServiceList) (hinv : Inv l) (name : String)
    (hne : l.services ≠ []) :
    GoMap.index 0 l.serviceIndexes name < l.tviewList.items.length := by
  rw [hinv.length_eq]
  cases hg : GoMap.get? l.serviceIndexes name with
  | none =>
    simp only [GoMap.index, hg, Option.getD_none]
    exact List.length_pos.2 hne
  | some i =>
    simp only [GoMap.index, hg, Option.getD_some]
    have := hinv.index_get name i hg
    rcases Nat.lt_or_ge i l.services.length with hi | hi
    · exact hi
    · simp [List.getElem?_eq_none hi] at this

/-- The method `SetState` keeps the invariant, the services and the index map. -/
theorem Inv_SetState (l l1 : ServiceList) (name : String) (state : State) (hinv : Inv l)
    (h : l.SetState name state = some l1) :
    Inv l1 ∧ l1.services = l.services ∧ l1.serviceIndexes = l.serviceIndexes := by
  by_cases hlt : GoMap.index 0 l.serviceIndexes name < l.tviewList.items.length
  · rw [SetState_eq l name state hlt] at h
    cases h
    exact ⟨⟨by simp [hinv.length_eq], hinv.index_get, hinv.index_none, hinv.index_some⟩, rfl, rfl⟩
  · rw [SetState_eq_none l name state hlt] at h
    cases h

/-- Adding the names one by one from a list that satisfies the invariant does
not panic; it appends the names to the services and one Dead item per name to
the display. -/
theorem foldlM_addService (names : List String) (l0 : ServiceList) (hinv : Inv l0) :
    ∃ l, names.foldlM (fun list service => list.addService service) l0 = some l ∧
      Inv l ∧ l.services = l0.services ++ names ∧
      l.tviewList.items = l0.tviewList.items ++
        names.map (fun n => { MainText := mainText n StateDead, SecondaryText := "", Shortcut := 0 }) ∧
      l.tviewList.showSecondaryText = l0.tviewList.showSecondaryText := by
  induction names generalizing l0 with
  | nil => exact ⟨l0, rfl, hinv, by simp, by simp, rfl⟩
  | cons n rest ih =>
    have hadd := addService_eq l0 n hinv.length_eq
    have hinv1 := Inv_addService l0 _ n hinv hadd
    obtain ⟨l, h1, h2, h3, h4, h5⟩ := ih _ hinv1
    refine ⟨l, ?_, h2, ?_, ?_, ?_⟩
    · simp only [List.foldlM_cons, hadd]
      exact h1
    · simp [h3]
    · simp [h4]
    · simp [h5]

end ServiceList

/-- The function `NewServiceList` does not panic; the list it builds
satisfies the invariant, holds the names in order and shows one Dead item per
name. -/
theorem NewServiceList_eq (names : List String) :
    ∃ l, NewServiceList names = some l ∧ ServiceList.Inv l ∧ l.services = names ∧
      l.tviewList.items = names.map (fun n =>
        { MainText := ServiceList.mainText n StateDead, SecondaryText := "", Shortcut := 0 }) ∧
      l.tviewList.showSecondaryText = false := by
  obtain ⟨l, h1, h2, h3, h4, h5⟩ :=
    ServiceList.foldlM_addService names _ (ServiceList.Inv_empty false)
  exact ⟨l, h1, h2, by simpa using h3, by simpa using h4, by simpa using h5⟩

/-- Every reachable service list satisfies the invariant. -/
theorem ServiceList.Reachable.inv {l : ServiceList} (h : ServiceList.Reachable l) :
    ServiceList.Inv l := by
  induction h with
  | new services l h =>
    obtain ⟨l', h1, h2, -⟩ := NewServiceList_eq services
    rw [h1] at h
    cases h
    exact h2
  | addService l0 l name _ h ih => exact ServiceList.Inv_addService l0 l name ih h
  | setState l0 l name state _ h ih => exact (ServiceList.Inv_SetState l0 l name state ih h).1

/-! ## Lemmas on the texts -/

/-- The two messages of `main` never coincide: their fixed beginnings differ. -/
theorem main_messages_ne (a b : String) :
    "Error while parsing config: " ++ a ≠ "Error while initing service manager: " ++ b := by
  intro h
  have := congrArg String.data h
  simp [String.data_append] at this

/-- For a fixed name, the text of `SetState` tells the states apart. -/
theorem mainText_injective (name : String) (s1 s2 : State)
    (h : ServiceList.mainText name s1 = ServiceList.mainText name s2) : s1 = s2 := by
  have := congrArg String.data h
  cases s1 <;> cases s2 <;> first
    | rfl
    | (exfalso
       simp [ServiceList.mainText, GoMap.index, GoMap.get?, serviceListStateColors,
         String.data_append] at this)

/-- The Dead text of a name, spelled out. -/
theorem mainText_dead (name : String) :
    ServiceList.mainText name StateDead = "[grey]â—[-] " ++ name ++ " (dead)" := by
  apply String.ext
  simp [ServiceList.mainText, GoMap.index, GoMap.get?, serviceListStateColors,
    serviceListStateNames, String.data_append]

/-- After a `SetState` that does not panic, the item at the index read for
the name carries the text of the name and state. -/
theorem SetState_text (l l1 : ServiceList) (name : String) (state : State)
    (h : l.SetState name state = some l1) :
    (l1.tviewList.items[GoMap.index 0 l.serviceIndexes name]?).map (fun item => item.MainText) =
      some (ServiceList.mainText name state) := by
  by_cases hlt : GoMap.index 0 l.serviceIndexes name < l.tviewList.items.length
  · rw [ServiceList.SetState_eq l name state hlt] at h
    cases h
    simp [hlt]
  · rw [ServiceList.SetState_eq_none l name state hlt] at h
    cases h

/-! ## Claims on `main` and the display -/

/-- C6: in `main`, if `parseConfig` returns an error, the program prints it
behind the config-parsing text and exits with status 1, and `Init` is not
called; if `parseConfig` succeeds and `Init` returns an error, the program
prints it behind the initialisation text and exits with status 1. In both
cases the service list is never built and the application never run, and the
two printed texts cannot be confused, whatever the errors. -/
theorem main_exits_on_error (env : Env M R F) (configPath : String) (e : GoError)
    (h : (parseConfig env (NewServiceManager env) configPath).err = some e ∨
      ((parseConfig env (NewServiceManager env) configPath).err = none ∧
        (env.Init (parseConfig env (NewServiceManager env) configPath).manager.state).2 =
          .error e)) :
    ((parseConfig env (NewServiceManager env) configPath).err = some e →
      main env configPath =
        [.printed ("Error while parsing config: " ++ e.Error ++ "\n"), .exit 1] ∧
      Event.initCalled ∉ main env configPath) ∧
    ((parseConfig env (NewServiceManager env) configPath).err = none →
      main env configPath =
        [.initCalled, .printed ("Error while initing service manager: " ++ e.Error), .exit 1]) ∧
    (main env configPath).getLast? = some (.exit 1) ∧
    (∀ list, Event.serviceListBuilt list ∉ main env configPath) ∧
    Event.appRun ∉ main env configPath ∧
    (∀ a b : GoError,
      "Error while parsing config: " ++ a.Error ++ "\n" ≠
        "Error while initing service manager: " ++ b.Error) := by
  have hmsg : ∀ a b : GoError,
      "Error while parsing config: " ++ a.Error ++ "\n" ≠
        "Error while initing service manager: " ++ b.Error := by
    intro a b
    rw [String.append_assoc]
    exact main_messages_ne _ _
  rcases h with h | ⟨h1, h2⟩
  · have hm : main env configPath =
        [.printed ("Error while parsing config: " ++ e.Error ++ "\n"), .exit 1] := by
      simp [main, h]
    refine ⟨fun _ => ⟨hm, by simp [hm]⟩, fun h' => ?_, by simp [hm], by simp [hm], by simp [hm],
      hmsg⟩
    rw [h] at h'
    cases h'
  · have hm : main env configPath =
        [.initCalled, .printed ("Error while initing service manager: " ++ e.Error), .exit 1] := by
      simp [main, h1, h2]
    refine ⟨fun h' => ?_, fun _ => hm, by simp [hm], by simp [hm], by simp [hm], hmsg⟩
    rw [h1] at h'
    cases h'

/-- C6 at concrete inputs: a file that does not parse, and a file without
services, which `Init` of the concrete environment refuses. -/
theorem main_exits_on_error_witness :
    (main sampleEnv "bad.yaml" =
      [.printed ("Error while parsing config: " ++
          (GoError.errorf "Failed to parse service config for api: "
            (.errorsNew "command should contain at least one element")).Error ++ "\n"),
        .exit 1]) ∧
    (main sampleEnv "none.yaml" =
      [.initCalled,
        .printed ("Error while initing service manager: " ++ (GoError.foreign "no services").Error),
        .exit 1]) :=
  ⟨((main_exits_on_error sampleEnv "bad.yaml"
      (.errorf "Failed to parse service config for api: "
        (.errorsNew "command should contain at least one element"))
      (Or.inl (by decide))).1 (by decide)).1,
   (main_exits_on_error sampleEnv "none.yaml" (.foreign "no services")
      (Or.inr ⟨by decide, rfl⟩)).2.1 (by decide)⟩

/-- C7: each of the five states has an entry in `serviceListStateNames` and
in `serviceListStateColors`; different states have different labels and
different colours; for a fixed name the text of `SetState` differs for every
two different states, and that text is what `SetState` writes into the item. -/
theorem state_rendering_distinct :
    (∀ s, ∃ label, GoMap.get? serviceListStateNames s = some label) ∧
    (∀ s, ∃ colour, GoMap.get? serviceListStateColors s = some colour) ∧
    (∀ s1 s2, s1 ≠ s2 →
      GoMap.index "" serviceListStateNames s1 ≠ GoMap.index "" serviceListStateNames s2) ∧
    (∀ s1 s2, s1 ≠ s2 →
      GoMap.index "" serviceListStateColors s1 ≠ GoMap.index "" serviceListStateColors s2) ∧
    (∀ (name : String) (s1 s2 : State), s1 ≠ s2 →
      ServiceList.mainText name s1 ≠ ServiceList.mainText name s2) ∧
    (∀ (l l1 : ServiceList) (name : String) (s : State), l.SetState name s = some l1 →
      (l1.tviewList.items[GoMap.index 0 l.serviceIndexes name]?).map (fun item => item.MainText) =
        some (ServiceList.mainText name s)) := by
  refine ⟨?_, ?_, ?_, ?_, ?_, ?_⟩
  · intro s
    cases s <;> exact ⟨_, rfl⟩
  · intro s
    cases s <;> exact ⟨_, rfl⟩
  · intro s1 s2
    cases s1 <;> cases s2 <;> decide
  · intro s1 s2
    cases s1 <;> cases s2 <;> decide
  · intro name s1 s2 hne h
    exact hne (mainText_injective name s1 s2 h)
  · intro l l1 name s h
    exact SetState_text l l1 name s h

/-- C7 at a concrete input: the texts of one name in two states. -/
theorem state_rendering_distinct_witness :
    StateRunning ≠ StateStarted ∧
    ServiceList.mainText "db" StateRunning ≠ ServiceList.mainText "db" StateStarted :=
  ⟨by decide, state_rendering_distinct.2.2.2.2.1 "db" StateRunning StateStarted (by decide)⟩

/-- C8: for every list of names, repeated names included, `NewServiceList`
does not panic and builds a list with exactly one item per name, in order,
the text of the i-th item being the Dead text of the i-th name: the grey
colour tag, the marker, the name and the label `dead`. A service list that
`main` builds is `NewServiceList` of the names `Init` returned; `main` then
runs the application and makes no `SetState` call, so this is the list shown. -/
theorem NewServiceList_all_dead (names : List String) (env : Env M R F) (configPath : String) :
    (∃ l, NewServiceList names = some l ∧
      l.services = names ∧
      l.tviewList.items.length = names.length ∧
      l.tviewList.items.map (fun item => item.MainText) =
        names.map (fun n => ServiceList.mainText n StateDead) ∧
      (∀ n, ServiceList.mainText n StateDead = "[grey]â—[-] " ++ n ++ " (dead)") ∧
      (∀ (i : Nat) (n : String), names[i]? = some n →
        (l.tviewList.items[i]?).map (fun item => item.MainText) =
          some ("[grey]â—[-] " ++ n ++ " (dead)"))) ∧
    (∀ list, Event.serviceListBuilt list ∈ main env configPath →
      ∃ services,
        (env.Init (parseConfig env (NewServiceManager env) configPath).manager.state).2 =
          .ok services ∧
        NewServiceList services = some list ∧
        list.tviewList.items.map (fun item => item.MainText) =
          services.map (fun n => ServiceList.mainText n StateDead) ∧
        (main env configPath).take 3 = [.initCalled, .serviceListBuilt list, .appRun]) := by
  constructor
  · obtain ⟨l, h1, -, h3, h4, -⟩ := NewServiceList_eq names
    refine ⟨l, h1, h3, by simp [h4], by simp [h4], mainText_dead, ?_⟩
    intro i n hi
    simp [h4, hi, mainText_dead]
  · intro list hmem
    cases hp : (parseConfig env (NewServiceManager env) configPath).err with
    | some e => simp [main, hp] at hmem
    | none =>
      cases hin : (env.Init (parseConfig env (NewServiceManager env) configPath).manager.state).2 with
      | error e => simp [main, hp, hin] at hmem
      | ok services =>
        obtain ⟨l, h1, -, -, h4, -⟩ := NewServiceList_eq services
        have hm : main env configPath = .initCalled :: .serviceListBuilt l :: .appRun ::
            (match env.appRun () with
              | some _ => [.panicked]
              | none => []) := by
          simp [main, hp, hin, h1]
        have hl : list = l := by
          rw [hm] at hmem
          cases hrun : env.appRun () <;> simp [hrun] at hmem <;> exact hmem
        subst hl
        exact ⟨services, rfl, h1, by simp [h4], by simp [hm]⟩

/-- C8 at a concrete input: the run of `main` on the well-formed file. -/
theorem NewServiceList_all_dead_witness :
    Event.serviceListBuilt
        { tviewList :=
            { items := [{ MainText := "[grey]â—[-] db (dead)", SecondaryText := "", Shortcut := 0 },
                        { MainText := "[grey]â—[-] api (dead)", SecondaryText := "", Shortcut := 0 }]
              showSecondaryText := false }
          services := ["db", "api"]
          serviceIndexes := [("db", 0), ("api", 1)] } ∈ main sampleEnv "config.yaml" ∧
    ∃ services,
      (sampleEnv.Init
        (parseConfig sampleEnv (NewServiceManager sampleEnv) "config.yaml").manager.state).2 =
          .ok services ∧
      NewServiceList services = some
        { tviewList :=
            { items := [{ MainText := "[grey]â—[-] db (dead)", SecondaryText := "", Shortcut := 0 },
                        { MainText := "[grey]â—[-] api (dead)", SecondaryText := "", Shortcut := 0 }]
              showSecondaryText := false }
          services := ["db", "api"]
          serviceIndexes := [("db", 0), ("api", 1)] } ∧
      ["[grey]â—[-] db (dead)", "[grey]â—[-] api (dead)"] =
        services.map (fun n => ServiceList.mainText n StateDead) ∧
      (main sampleEnv "config.yaml").take 3 =
        [.initCalled,
         .serviceListBuilt
          { tviewList :=
              { items := [{ MainText := "[grey]â—[-] db (dead)", SecondaryText := "", Shortcut := 0 },
                          { MainText := "[grey]â—[-] api (dead)", SecondaryText := "", Shortcut := 0 }]
                showSecondaryText := false }
            services := ["db", "api"]
            serviceIndexes := [("db", 0), ("api", 1)] },
         .appRun] :=
  ⟨by decide,
   (NewServiceList_all_dead ["db", "api"] sampleEnv "config.yaml").2 _ (by decide)⟩

/-! ## Claims on `SetState` -/

/-- In a list without repeated elements, an element sits at one position only. -/
theorem indexOf_eq_of_getElem? (names : List String) (hnodup : names.Nodup) (n : String)
    (i : Nat) (h : names[i]? = some n) : names.indexOf n = i := by
  obtain ⟨hi, hn⟩ := List.getElem?_eq_some_iff.1 h
  rw [← hn]
  exact List.indexOf_getElem hnodup i hi

/-- C9: for a service list built by `NewServiceList` from pairwise distinct
names, every name `n` of it and every state `s`: the index map sends `n` to
the position of `n` in `services`, and `SetState n s` does not panic and
replaces the item at that position by the one with the text of `(n, s)`,
every other item, the services and the index map staying as they were. -/
theorem SetState_changes_only_own_item (names : List String) (l : ServiceList) (n : String)
    (s : State) (hnew : NewServiceList names = some l) (hnodup : names.Nodup)
    (hn : n ∈ names) :
    l.services = names ∧
    GoMap.get? l.serviceIndexes n = some (l.services.indexOf n) ∧
    l.services[l.services.indexOf n]? = some n ∧
    l.services.indexOf n < l.tviewList.items.length ∧
    ∃ l1, l.SetState n s = some l1 ∧
      (l1.tviewList.items[l.services.indexOf n]?).map (fun item => item.MainText) =
        some (ServiceList.mainText n s) ∧
      (∀ j : Nat, j ≠ l.services.indexOf n → l1.tviewList.items[j]? = l.tviewList.items[j]?) ∧
      l1.tviewList.items.length = l.tviewList.items.length ∧
      l1.tviewList.items = l.tviewList.items.set (l.services.indexOf n)
        { MainText := ServiceList.mainText n s, SecondaryText := "", Shortcut := 0 } ∧
      l1.services = l.services ∧
      l1.serviceIndexes = l.serviceIndexes := by
  obtain ⟨l', h1, hinv, hserv, hitems, -⟩ := NewServiceList_eq names
  rw [h1] at hnew
  cases hnew
  have hmem : n ∈ l.services := by rw [hserv]; exact hn
  obtain ⟨i, hi⟩ := hinv.index_some n hmem
  have hget := hinv.index_get n i hi
  have hidx : l.services.indexOf n = i :=
    indexOf_eq_of_getElem? l.services (by rw [hserv]; exact hnodup) n i hget
  have hindex : GoMap.index 0 l.serviceIndexes n = i := by simp [GoMap.index, hi]
  have hlt : i < l.tviewList.items.length := by
    rw [hinv.length_eq]
    exact (List.getElem?_eq_some_iff.1 hget).1
  have hset := ServiceList.SetState_eq l n s (by rw [hindex]; exact hlt)
  have hshort : ∀ h : i < l.tviewList.items.length, (l.tviewList.items[i]).Shortcut = 0 := by
    intro h
    simp [hitems]
  rw [hidx]
  refine ⟨hserv, hi, hget, hlt, _, hset, ?_, ?_, ?_, ?_, rfl, rfl⟩
  · simp [hindex, hlt]
  · intro j hj
    simp only [hindex]
    rw [List.getElem?_set_ne (Ne.symm hj)]
  · simp
  · simp only [hindex, hshort]

/-- C9 at a concrete input. -/
theorem SetState_changes_only_own_item_witness :
    NewServiceList ["db", "api", "web"] = some
      { tviewList :=
          { items := [{ MainText := "[grey]â—[-] db (dead)", SecondaryText := "", Shortcut := 0 },
                      { MainText := "[grey]â—[-] api (dead)", SecondaryText := "", Shortcut := 0 },
                      { MainText := "[grey]â—[-] web (dead)", SecondaryText := "", Shortcut := 0 }]
            showSecondaryText := false }
        services := ["db", "api", "web"]
        serviceIndexes := [("db", 0), ("api", 1), ("web", 2)] } ∧
    ["db", "api", "web"].Nodup ∧ "api" ∈ ["db", "api", "web"] ∧
    ∃ l1,
      ServiceList.SetState
        { tviewList :=
            { items := [{ MainText := "[grey]â—[-] db (dead)", SecondaryText := "", Shortcut := 0 },
                        { MainText := "[grey]â—[-] api (dead)", SecondaryText := "", Shortcut := 0 },
                        { MainText := "[grey]â—[-] web (dead)", SecondaryText := "", Shortcut := 0 }]
              showSecondaryText := false }
          services := ["db", "api", "web"]
          serviceIndexes := [("db", 0), ("api", 1), ("web", 2)] } "api" StateRunning = some l1 ∧
      l1.tviewList.items =
        [{ MainText := "[grey]â—[-] db (dead)", SecondaryText := "", Shortcut := 0 },
         { MainText := "[green]â—[-] api (running)", SecondaryText := "", Shortcut := 0 },
         { MainText := "[grey]â—[-] web (dead)", SecondaryText := "", Shortcut := 0 }] := by
  refine ⟨by decide, by decide, by decide, ?_⟩
  obtain ⟨-, -, -, -, l1, h1, -, -, -, h2, -, -⟩ :=
    SetState_changes_only_own_item ["db", "api", "web"] _ "api" StateRunning
      (by decide : NewServiceList ["db", "api", "web"] = some
        { tviewList :=
            { items := [{ MainText := "[grey]â—[-] db (dead)", SecondaryText := "", Shortcut := 0 },
                        { MainText := "[grey]â—[-] api (dead)", SecondaryText := "", Shortcut := 0 },
                        { MainText := "[grey]â—[-] web (dead)", SecondaryText := "", Shortcut := 0 }]
              showSecondaryText := false }
          services := ["db", "api", "web"]
          serviceIndexes := [("db", 0), ("api", 1), ("web", 2)] })
      (by decide) (by decide)
  refine ⟨l1, h1, ?_⟩
  rw [h2]
  decide

/-- C10: for every reachable service list with at least one service and
every name that was never added to it, `SetState name s` neither panics nor
leaves the list alone: the map has no entry for the name, the index read is
0, and the text of the first item becomes the text of the unknown name and
state `s`; the other items, the services and the index map stay as they were. -/
theorem SetState_unknown_name_overwrites_first (l : ServiceList) (name : String) (s : State)
    (hreach : ServiceList.Reachable l) (hne : l.services ≠ []) (hname : name ∉ l.services) :
    GoMap.get? l.serviceIndexes name = none ∧
    GoMap.index 0 l.serviceIndexes name = 0 ∧
    ∃ l1 first rest, l.tviewList.items = first :: rest ∧
      l.SetState name s = some l1 ∧
      l1.tviewList.items =
        { MainText := ServiceList.mainText name s, SecondaryText := "",
          Shortcut := first.Shortcut } :: rest ∧
      l1.services = l.services ∧
      l1.serviceIndexes = l.serviceIndexes := by
  have hinv := hreach.inv
  have hnone := hinv.index_none name hname
  have hindex : GoMap.index 0 l.serviceIndexes name = 0 := by simp [GoMap.index, hnone]
  have hlt := ServiceList.Inv.index_lt l hinv name hne
  have hset := ServiceList.SetState_eq l name s hlt
  cases hitems : l.tviewList.items with
  | nil => simp [hindex, hitems] at hlt
  | cons first rest =>
    refine ⟨hnone, hindex, _, first, rest, rfl, hset, ?_, rfl, rfl⟩
    simp [hindex, hitems]

/-- C10 at a concrete input: a state for a name that is not in the list. -/
theorem SetState_unknown_name_overwrites_first_witness :
    ∃ l, NewServiceList ["db", "api"] = some l ∧ l.services ≠ [] ∧ "cache" ∉ l.services ∧
      ∃ l1, l.SetState "cache" StateFailed = some l1 ∧
        l1.tviewList.items.map (fun item => item.MainText) =
          ["[red]â—[-] cache (failed)", "[grey]â—[-] api (dead)"] := by
  refine ⟨{ tviewList :=
              { items := [{ MainText := "[grey]â—[-] db (dead)", SecondaryText := "", Shortcut := 0 },
                          { MainText := "[grey]â—[-] api (dead)", SecondaryText := "", Shortcut := 0 }]
                showSecondaryText := false }
            services := ["db", "api"]
            serviceIndexes := [("db", 0), ("api", 1)] }, by decide, by decide, by decide, ?_⟩
  obtain ⟨-, -, l1, first, rest, h0, h1, h2, -, -⟩ :=
    SetState_unknown_name_overwrites_first _ "cache" StateFailed
      (ServiceList.Reachable.new ["db", "api"] _
        (by decide : NewServiceList ["db", "api"] = some
          { tviewList :=
              { items := [{ MainText := "[grey]â—[-] db (dead)", SecondaryText := "", Shortcut := 0 },
                          { MainText := "[grey]â—[-] api (dead)", SecondaryText := "", Shortcut := 0 }]
                showSecondaryText := false }
            services := ["db", "api"]
            serviceIndexes := [("db", 0), ("api", 1)] }))
      (by decide) (by decide)
  refine ⟨l1, h1, ?_⟩
  rw [h2]
  simp only [List.cons.injEq] at h0
  obtain ⟨-, hrest⟩ := h0
  rw [← hrest]
  simp only [List.map_cons, List.map_nil, List.cons.injEq, and_true]
  decide

end ServiceManagerMain
